import Mathlib

/-!
Shallow embedding of `src/service/src/builder.rs` from the shuttle service
builder crate: classification of workspace members into deployment classes,
batched toolchain invocation, artifact-path resolution, service-name
resolution, and the clean operation.

Modelling conventions:
- file-system paths are lists of path components (`List String`); joining a
  `PathBuf` array is list append; rendering a path into a command-line
  argument uses `joinPath` (components interspersed with a slash);
- the toolchain subprocess (`std::process::Command ... .output()`) is an
  oracle passed in as a function from the argument list to the captured
  output (`CmdOutput`); for the build path the oracle returns
  `Except String CmdOutput` because the Rust code propagates a spawn
  failure with the question-mark operator, while for the clean path the
  Rust code unwraps, so the oracle is total there;
- `cargo metadata` is an oracle value `Except String (List Package)`;
- the marker dependency names `NEXT_NAME` and `RUNTIME_NAME` live in the
  crate root, outside `src/`, so they are parameters (`nn`, `rn`),
  as the spec itself suggests for testability;
- `std::env::consts::EXE_SUFFIX` is a platform constant and is a parameter
  (`es`); its real values are the empty string on Unix-like platforms and
  ".exe" on Windows;
- `PathBuf::set_extension` is modelled faithfully (`setExtension` below),
  including the Rust `file_stem` rules: a file name with no dot, or
  beginning with its only dot, is its own stem; otherwise the stem is the
  portion before the final dot. The model assumes the final path component
  is a nonempty normal file name, which holds for cargo package names.
-/

/-- A cargo target descriptor: only the kind tags matter to the builder. -/
structure Target where
  kind : List String
deriving DecidableEq, Repr

/-- A workspace member as seen through `cargo metadata`: name, dependency
names, declared targets, and the path of its manifest. -/
structure Package where
  name : String
  dependencies : List String
  targets : List Target
  manifest_path : List String
deriving DecidableEq, Repr

/-- The artifact descriptor returned by the builder (struct `BuiltService`). -/
structure BuiltService where
  executable_path : List String
  is_wasm : Bool
  package_name : String
  working_directory : List String
  manifest_path : List String
deriving DecidableEq, Repr

/-- Captured subprocess output: exit-status success flag, stdout, stderr. -/
structure CmdOutput where
  success : Bool
  stdout : String
  stderr : String
deriving DecidableEq, Repr

/-- Result of one `compiler` call: the toolchain command lines it issued and
its returned value. -/
structure CompileRun where
  invocations : List (List String)
  result : Except String (List BuiltService)

/-- Result of one `build_workspace` call: the toolchain command lines issued,
whether workspace metadata was loaded, and the returned value. -/
structure BuildRun where
  invocations : List (List String)
  metadataLoaded : Bool
  result : Except String (List BuiltService)

/-- Render a component path the way it is passed as one command argument. -/
def joinPath (p : List String) : String :=
  String.intercalate "/" p

/-- Split a character list at its final dot: returns the parts strictly
before and strictly after the last `.`, or `none` if there is no dot. -/
def splitLastDot : List Char → Option (List Char × List Char)
  | [] => none
  | c :: rest =>
    match splitLastDot rest with
    | some (b, a) => some (c :: b, a)
    | none => if c = '.' then some ([], rest) else none

/-- Rust `Path::file_stem` on a single normal file-name component: the whole
name when there is no dot or when the name starts with its only dot (and for
the special name ".."), otherwise the portion before the final dot. -/
def fileStem (s : String) : String :=
  if s = ".." then s
  else
    match splitLastDot s.toList with
    | none => s
    | some ([], _) => s
    | some (b, _) => String.mk b

/-- Rust `PathBuf::set_extension` on the final file-name component: truncate
to the stem, then, when the new extension is nonempty, append a dot and the
extension verbatim. -/
def setExtension (s ext : String) : String :=
  if ext = "" then fileStem s else fileStem s ++ "." ++ ext

/-- `is_next`: the member lists the shuttle-next marker dependency `nn`. -/
def is_next (nn : String) (p : Package) : Bool :=
  p.dependencies.any (fun dependency => dependency == nn)

/-- `is_alpha`: the member lists the runtime marker dependency `rn`. -/
def is_alpha (rn : String) (p : Package) : Bool :=
  p.dependencies.any (fun dependency => dependency == rn)

/-- `cargo_metadata::Target::is_bin`: the target has kind "bin". -/
def targetIsBin (t : Target) : Bool :=
  t.kind.any (fun kind => kind == "bin")

/-- `is_cdylib`: the target has kind "cdylib". -/
def is_cdylib (t : Target) : Bool :=
  t.kind.any (fun kind => kind == "cdylib")

/-- `ensure_binary`: alpha members must declare a binary target. -/
def ensure_binary (package : Package) : Except String Unit :=
  if package.targets.any targetIsBin then Except.ok ()
  else Except.error "Your Shuttle project must be a binary."

/-- `ensure_cdylib`: shuttle-next members must declare a cdylib target. -/
def ensure_cdylib (package : Package) : Except String Unit :=
  if package.targets.any is_cdylib then Except.ok ()
  else Except.error "Your Shuttle next project must be a library. Please add `[lib]` to your Cargo.toml file."

/-- The per-member validation performed inside the classification loop of
`build_workspace`: cdylib check for shuttle-next members, binary check for
alpha members, nothing for members matching neither marker. -/
def memberCheck (nn rn : String) (p : Package) : Except String Unit :=
  if is_next nn p then ensure_cdylib p
  else if is_alpha rn p then ensure_binary p
  else Except.ok ()

/-- The classification loop of `build_workspace`: route each member into the
alpha or next bucket in order, validating it against its class target-kind
requirement and failing fast on the first violation. -/
def classify (nn rn : String) : List Package → Except String (List Package × List Package)
  | [] => Except.ok ([], [])
  | m :: rest =>
    if is_next nn m then
      match ensure_cdylib m with
      | Except.error e => Except.error e
      | Except.ok _ =>
        match classify nn rn rest with
        | Except.error e => Except.error e
        | Except.ok (a, n) => Except.ok (a, m :: n)
    else if is_alpha rn m then
      match ensure_binary m with
      | Except.error e => Except.error e
      | Except.ok _ =>
        match classify nn rn rest with
        | Except.error e => Except.error e
        | Except.ok (a, n) => Except.ok (m :: a, n)
    else classify nn rn rest

/-- `compiler`: one batched `cargo build` invocation for a same-class batch,
then one artifact descriptor per package via path resolution. The captured
output of the invocation is bound but its exit status is never inspected:
only a spawn failure (the `Except.error` of the oracle) is propagated. -/
def compiler (es : String) (run : List String → Except String CmdOutput)
    (packages : List Package) (release_mode wasm : Bool)
    (project_path cwd : List String) (jobs : Nat) : CompileRun :=
  let manifest_path := project_path ++ ["Cargo.toml"]
  let cmd :=
    ["build", "-j", toString jobs, "--manifest-path", joinPath manifest_path]
      ++ (packages.flatMap fun package => ["--package", package.name])
      ++ (if release_mode then ["--profile", "release"] else ["--profile", "dev"])
      ++ (if wasm then ["--target", "wasm32-wasi"] else [])
  let profile := if release_mode then "release" else "debug"
  let outputs := packages.map fun package =>
    if wasm then
      { executable_path :=
          project_path ++ ["target", "wasm32-wasi", profile, setExtension package.name "wasm"]
        is_wasm := true
        package_name := package.name
        working_directory := cwd
        manifest_path := package.manifest_path }
    else
      { executable_path :=
          project_path ++ ["target", profile, setExtension package.name es]
        is_wasm := false
        package_name := package.name
        working_directory := cwd
        manifest_path := package.manifest_path }
  { invocations := [cmd]
    result :=
      match run cmd with
      | Except.error e => Except.error e
      | Except.ok _ => Except.ok outputs }

/-- `build_workspace`: check the manifest exists (error "failed to read" if
not), load metadata, classify members, then compile the alpha batch followed
by the next batch, skipping empty batches, and concatenate the artifacts. -/
def build_workspace (nn rn es : String) (run : List String → Except String CmdOutput)
    (manifest_exists : Bool) (metadata : Except String (List Package))
    (project_path cwd : List String) (release_mode : Bool) (jobs : Nat) : BuildRun :=
  if !manifest_exists then
    { invocations := [], metadataLoaded := false, result := Except.error "failed to read" }
  else
    match metadata with
    | Except.error e => { invocations := [], metadataLoaded := true, result := Except.error e }
    | Except.ok members =>
      match classify nn rn members with
      | Except.error e => { invocations := [], metadataLoaded := true, result := Except.error e }
      | Except.ok (alpha_packages, next_packages) =>
        let first :=
          if alpha_packages.isEmpty then ({ invocations := [], result := Except.ok [] } : CompileRun)
          else compiler es run alpha_packages release_mode false project_path cwd jobs
        match first.result with
        | Except.error e =>
          { invocations := first.invocations, metadataLoaded := true, result := Except.error e }
        | Except.ok r1 =>
          let second :=
            if next_packages.isEmpty then ({ invocations := [], result := Except.ok [] } : CompileRun)
            else compiler es run next_packages release_mode true project_path cwd jobs
          match second.result with
          | Except.error e =>
            { invocations := first.invocations ++ second.invocations, metadataLoaded := true,
              result := Except.error e }
          | Except.ok r2 =>
            { invocations := first.invocations ++ second.invocations, metadataLoaded := true,
              result := Except.ok (r1 ++ r2) }

/-- The argument list of the `cargo clean` invocation built by `clean_crate`. -/
def cleanCmd (project_path : List String) (release_mode : Bool) : List String :=
  ["clean", "--manifest-path", joinPath (project_path ++ ["Cargo.toml"]),
   "--profile", if release_mode then "release" else "dev"]

/-- `clean_crate`: run the clean invocation, thread the success flag through
the status pipe as the strings "true"/"false", and return the pair
[stderr, stdout] on success or the error "cargo clean failed" otherwise. -/
def clean_crate (run : List String → CmdOutput)
    (project_path : List String) (release_mode : Bool) : Except String (List String) :=
  let output := run (cleanCmd project_path release_mode)
  let status_str := if output.success then "true" else "false"
  let status := status_str == "true"
  if status then Except.ok [output.stderr, output.stdout]
  else Except.error "cargo clean failed"

/-- A parsed toml value as far as the builder cares: a string, or anything
else. -/
inductive TomlValue where
  | str (s : String)
  | other
deriving DecidableEq

/-- The state of the override document `Shuttle.toml` at one path: absent
(or unreadable), present but not valid toml, or parsed into a top-level
key-value table. -/
inductive ShuttleToml where
  | missing
  | unparseable
  | parsed (fields : List (String × TomlValue))
deriving DecidableEq

/-- Top-level key lookup in a parsed toml table (`toml::Value::get`). -/
def lookupKey (k : String) : List (String × TomlValue) → Option TomlValue
  | [] => none
  | (k2, v) :: rest => if k2 == k then some v else lookupKey k rest

/-- `extract_shuttle_toml_name`: read the file at `path` (through the
file-system oracle `fs`), parse it, and extract a string-valued "name"
field, with a distinct error for each failure. -/
def extract_shuttle_toml_name (fs : List String → ShuttleToml)
    (path : List String) : Except String String :=
  match fs path with
  | ShuttleToml.missing => Except.error "Shuttle.toml not found"
  | ShuttleToml.unparseable => Except.error "failed to parse Shuttle.toml"
  | ShuttleToml.parsed fields =>
    match lookupKey "name" fields with
    | none => Except.error "failed to find `name` key in Shuttle.toml"
    | some (TomlValue.str s) => Except.ok s
    | some TomlValue.other => Except.error "`name` key in Shuttle.toml must be a string"

/-- Modelled from the spec: the error a failed project-name validation
produces (`NameError::InvalidName`). The validation itself lives in
`shuttle_common::project::ProjectName`, which is outside `src/`, so it is
kept abstract as a `validate` predicate parameter. -/
def invalidNameMsg : String := "invalid project name"

/-- `BuiltService::service_name`: try the "name" field of `Shuttle.toml` in
the working directory; when extraction succeeds the extracted name is
validated and a validation failure is returned directly; when extraction
fails in any way the package name is validated instead. -/
def service_name (validate : String → Bool) (fs : List String → ShuttleToml)
    (svc : BuiltService) : Except String String :=
  match extract_shuttle_toml_name fs (svc.working_directory ++ ["Shuttle.toml"]) with
  | Except.ok n => if validate n then Except.ok n else Except.error invalidNameMsg
  | Except.error _ =>
    if validate svc.package_name then Except.ok svc.package_name
    else Except.error invalidNameMsg

/-- A subprocess oracle that always succeeds with empty output. -/
def runOk : List String → Except String CmdOutput :=
  fun _ => Except.ok { success := true, stdout := "", stderr := "" }

/-- A subprocess oracle that always fails (non-zero exit) with a fixed
stderr. -/
def runFail : List String → Except String CmdOutput :=
  fun _ => Except.ok { success := false, stdout := "", stderr := "error: could not compile" }

/-- An alpha package with a binary target, used as a concrete input. -/
def svcPkg : Package :=
  { name := "svc", dependencies := ["shuttle-runtime"],
    targets := [{ kind := ["bin"] }], manifest_path := ["ws", "svc", "Cargo.toml"] }

/-- C1: the claim states that a non-zero exit status of the toolchain build
subprocess makes `compiler` return a CompilationFailed error carrying the
captured stderr. The code instead binds the captured output without ever
inspecting its exit status: at a concrete batch whose build subprocess exits
non-zero with a nonempty stderr, `compiler` still returns the artifact
descriptors. The spec itself flags this as a latent correctness gap in the
code, so the claim is the intent and the code is the slip. -/
theorem c1_ignores_exit_status :
    (compiler "" runFail [svcPkg] false false ["ws"] ["cwd"] 4).result
      = Except.ok
          [{ executable_path := ["ws", "target", "debug", "svc"], is_wasm := false,
             package_name := "svc", working_directory := ["cwd"],
             manifest_path := ["ws", "svc", "Cargo.toml"] }] := by
  rfl

/-- C7: with the manifest absent, `build_workspace` returns the
ManifestNotFound error (the source string is "failed to read") with no
metadata load and no toolchain invocation, and a second call under the same
absent-manifest condition, even with different metadata and subprocess
oracles, returns the identical result. -/
theorem c7_manifest_missing (nn rn es : String)
    (run₁ run₂ : List String → Except String CmdOutput)
    (md₁ md₂ : Except String (List Package)) (pp cwd : List String)
    (rm : Bool) (jobs : Nat) :
    build_workspace nn rn es run₁ false md₁ pp cwd rm jobs
        = { invocations := [], metadataLoaded := false,
            result := Except.error "failed to read" }
      ∧ build_workspace nn rn es run₂ false md₂ pp cwd rm jobs
        = build_workspace nn rn es run₁ false md₁ pp cwd rm jobs := by
  exact ⟨rfl, rfl⟩

/-- C8: `clean_crate` returns the pair of captured streams, stderr first,
when the clean subprocess exits successfully, and the CleanFailed error (the
source string is "cargo clean failed") when it exits non-zero. -/
theorem c8_clean_output_contract (run : List String → CmdOutput)
    (pp : List String) (rm : Bool) :
    ((run (cleanCmd pp rm)).success = true →
      clean_crate run pp rm
        = Except.ok [(run (cleanCmd pp rm)).stderr, (run (cleanCmd pp rm)).stdout])
    ∧ ((run (cleanCmd pp rm)).success = false →
      clean_crate run pp rm = Except.error "cargo clean failed") := by
  constructor
  · intro h
    simp [clean_crate, h]
  · intro h
    simp [clean_crate, h]

/-- Witness for C8 at a concrete oracle: a successful clean returns
[stderr, stdout]. -/
theorem c8_witness :
    clean_crate (fun _ => { success := true, stdout := "out", stderr := "err" }) ["ws"] false
      = Except.ok ["err", "out"] := by
  exact (c8_clean_output_contract
    (fun _ => { success := true, stdout := "out", stderr := "err" }) ["ws"] false).1 rfl

/-- A concrete validation predicate accepting only the name "pkgname". -/
def onlyPkgnameValid : String → Bool := fun s => s == "pkgname"

/-- A concrete service descriptor with package name "pkgname". -/
def pkgnameSvc : BuiltService :=
  { executable_path := [], is_wasm := false, package_name := "pkgname",
    working_directory := ["dir"], manifest_path := [] }

/-- C2 counterexample: the claim says an invalid-name error is returned only
when the package name also fails validation. Here the override file is
present and parseable with a string "name" value that fails validation while
the package name "pkgname" validates, yet `service_name` returns the
invalid-name error instead of falling back to the package name: a
successfully extracted override name is validated directly and its failure
is surfaced, not recovered. -/
theorem c2_counterexample :
    service_name onlyPkgnameValid
        (fun _ => ShuttleToml.parsed [("name", TomlValue.str "Bad-Name")]) pkgnameSvc
        = Except.error "invalid project name"
      ∧ onlyPkgnameValid "pkgname" = true := by
  exact ⟨rfl, rfl⟩

/-- C2 amended: when extraction of the override name succeeds and the name
validates, it is returned; when it succeeds and the name fails validation,
the invalid-name error is returned directly with no fallback; when
extraction fails in any way (file missing, parse error, missing or
non-string "name" field), the package name is validated instead, returned
if valid, and only its validation failure yields the invalid-name error. -/
theorem c2_name_resolution (validate : String → Bool)
    (fs : List String → ShuttleToml) (svc : BuiltService) :
    (∀ n, extract_shuttle_toml_name fs (svc.working_directory ++ ["Shuttle.toml"]) = Except.ok n →
       validate n = true → service_name validate fs svc = Except.ok n)
    ∧ (∀ n, extract_shuttle_toml_name fs (svc.working_directory ++ ["Shuttle.toml"]) = Except.ok n →
       validate n = false → service_name validate fs svc = Except.error invalidNameMsg)
    ∧ (∀ e, extract_shuttle_toml_name fs (svc.working_directory ++ ["Shuttle.toml"]) = Except.error e →
       validate svc.package_name = true →
       service_name validate fs svc = Except.ok svc.package_name)
    ∧ (∀ e, extract_shuttle_toml_name fs (svc.working_directory ++ ["Shuttle.toml"]) = Except.error e →
       validate svc.package_name = false →
       service_name validate fs svc = Except.error invalidNameMsg) := by
  refine ⟨?_, ?_, ?_, ?_⟩
  · intro n hn hv
    simp [service_name, hn, hv]
  · intro n hn hv
    simp [service_name, hn, hv]
  · intro e he hv
    simp [service_name, he, hv]
  · intro e he hv
    simp [service_name, he, hv]

/-- Witness for C2 at a concrete input: an override file with
name = "custom" wins over the package name. -/
theorem c2_witness :
    service_name (fun _ => true)
        (fun _ => ShuttleToml.parsed [("name", TomlValue.str "custom")]) pkgnameSvc
      = Except.ok "custom" := by
  exact (c2_name_resolution (fun _ => true)
    (fun _ => ShuttleToml.parsed [("name", TomlValue.str "custom")]) pkgnameSvc).1
    "custom" rfl rfl

/-- A member that fails its per-class validation makes the classification
loop fail with that error as soon as it is reached. -/
theorem classify_cons_error (nn rn : String) (m : Package) (post : List Package)
    (e : String) (h : memberCheck nn rn m = Except.error e) :
    classify nn rn (m :: post) = Except.error e := by
  unfold memberCheck at h
  unfold classify
  by_cases hnext : is_next nn m
  · simp only [hnext, if_true] at h ⊢
    simp [h]
  · simp only [hnext, if_false, Bool.false_eq_true] at h ⊢
    by_cases halpha : is_alpha rn m
    · simp only [halpha, if_true] at h ⊢
      simp [h]
    · simp [halpha] at h

/-- Members that pass their per-class validation do not mask a later
classification failure. -/
theorem classify_append_error (nn rn : String) (pre : List Package)
    (h : ∀ p ∈ pre, memberCheck nn rn p = Except.ok ()) (rest : List Package)
    (e : String) (hrest : classify nn rn rest = Except.error e) :
    classify nn rn (pre ++ rest) = Except.error e := by
  induction pre with
  | nil => simpa using hrest
  | cons p pre ih =>
    have hp : memberCheck nn rn p = Except.ok () := h p (List.mem_cons_self p pre)
    have hpre : ∀ q ∈ pre, memberCheck nn rn q = Except.ok () :=
      fun q hq => h q (List.mem_cons_of_mem p hq)
    have ihq := ih hpre
    unfold memberCheck at hp
    show classify nn rn (p :: (pre ++ rest)) = Except.error e
    unfold classify
    by_cases hnext : is_next nn p
    · simp only [hnext, if_true] at hp ⊢
      simp [hp, ihq]
    · simp only [hnext, if_false, Bool.false_eq_true] at hp ⊢
      by_cases halpha : is_alpha rn p
      · simp only [halpha, if_true] at hp ⊢
        simp [hp, ihq]
      · simp [halpha, ihq]

/-- An alpha member with no binary target, used as a concrete input. -/
def pkgNoBin : Package :=
  { name := "mypkg", dependencies := ["shuttle-runtime"],
    targets := [{ kind := ["lib"] }], manifest_path := [] }

/-- C3 counterexample: the claim says the missing-binary-target error names
the package. At a workspace whose only member is the alpha package "mypkg"
with no binary target, the build fails with the fixed message "Your Shuttle
project must be a binary.", and the package name "mypkg" does not occur in
that message. -/
theorem c3_counterexample :
    (build_workspace "shuttle-next" "shuttle-runtime" "" runOk true
        (Except.ok [pkgNoBin]) ["ws"] ["cwd"] false 1).result
        = Except.error "Your Shuttle project must be a binary."
      ∧ ¬ ("mypkg".toList <:+: "Your Shuttle project must be a binary.".toList) := by
  constructor
  · rfl
  · decide

/-- C3 amended: a workspace member classified NativeBinary (runtime marker,
not the next marker) with no "bin" target makes the whole build fail with
the missing-binary-target error before any toolchain invocation is issued,
provided the members ahead of it pass their own validation; symmetrically a
WasmLibrary member (next marker) with no "cdylib" target causes the
missing-cdylib-target failure. The error messages are fixed strings and do
not name the package. -/
theorem c3_missing_target_fails_fast (nn rn es : String)
    (run : List String → Except String CmdOutput) (pre post : List Package)
    (m : Package) (pp cwd : List String) (rm : Bool) (jobs : Nat)
    (hpre : ∀ p ∈ pre, memberCheck nn rn p = Except.ok ()) :
    (is_next nn m = false → is_alpha rn m = true → m.targets.any targetIsBin = false →
      build_workspace nn rn es run true (Except.ok (pre ++ m :: post)) pp cwd rm jobs
        = { invocations := [], metadataLoaded := true,
            result := Except.error "Your Shuttle project must be a binary." })
    ∧ (is_next nn m = true → m.targets.any is_cdylib = false →
      build_workspace nn rn es run true (Except.ok (pre ++ m :: post)) pp cwd rm jobs
        = { invocations := [], metadataLoaded := true,
            result := Except.error "Your Shuttle next project must be a library. Please add `[lib]` to your Cargo.toml file." }) := by
  constructor
  · intro hnext halpha hbin
    have hm : memberCheck nn rn m
        = Except.error "Your Shuttle project must be a binary." := by
      simp [memberCheck, hnext, halpha, ensure_binary, hbin]
    have hcl := classify_append_error nn rn pre hpre (m :: post) _
      (classify_cons_error nn rn m post _ hm)
    simp [build_workspace, hcl]
  · intro hnext hcd
    have hm : memberCheck nn rn m
        = Except.error "Your Shuttle next project must be a library. Please add `[lib]` to your Cargo.toml file." := by
      simp [memberCheck, hnext, ensure_cdylib, hcd]
    have hcl := classify_append_error nn rn pre hpre (m :: post) _
      (classify_cons_error nn rn m post _ hm)
    simp [build_workspace, hcl]

/-- Witness for C3 at a concrete input: the workspace containing only the
binary-less alpha package fails with the fixed message and issues no
toolchain invocation. -/
theorem c3_witness :
    build_workspace "shuttle-next" "shuttle-runtime" "" runOk true
        (Except.ok [pkgNoBin]) ["ws"] ["cwd"] false 1
      = { invocations := [], metadataLoaded := true,
          result := Except.error "Your Shuttle project must be a binary." } := by
  exact (c3_missing_target_fails_fast "shuttle-next" "shuttle-runtime" "" runOk
    [] [] pkgNoBin ["ws"] ["cwd"] false 1 (by simp)).1 rfl rfl rfl

/-- A dotless character list has no final-dot split. -/
theorem splitLastDot_eq_none (cs : List Char) (h : ∀ c ∈ cs, c ≠ '.') :
    splitLastDot cs = none := by
  induction cs with
  | nil => rfl
  | cons c rest ih =>
    have hc : c ≠ '.' := h c (List.mem_cons_self c rest)
    have hr := ih (fun d hd => h d (List.mem_cons_of_mem c hd))
    simp [splitLastDot, hr, hc]

/-- A dotless file name is its own stem. -/
theorem fileStem_of_no_dot (s : String) (h : ∀ c ∈ s.toList, c ≠ '.') :
    fileStem s = s := by
  have hn : splitLastDot s.data = none := splitLastDot_eq_none s.toList h
  unfold fileStem
  by_cases hs : s = ".."
  · simp [hs]
  · simp [hs, hn]

/-- On a dotless file name, setting an empty extension is the identity and
setting a nonempty extension appends a dot and the extension. -/
theorem setExtension_of_no_dot (s ext : String) (h : ∀ c ∈ s.toList, c ≠ '.') :
    (setExtension s "" = s) ∧ (ext ≠ "" → setExtension s ext = s ++ "." ++ ext) := by
  constructor
  · simp [setExtension, fileStem_of_no_dot s h]
  · intro hx
    simp [setExtension, hx, fileStem_of_no_dot s h]

/-- C4 counterexample: for the platform executable suffix ".exe" (the
Windows value of EXE_SUFFIX), the resolved native artifact for a package
named "svc" in Debug profile is <root>/target/debug/svc..exe, because
`set_extension` first drops to the file stem and then appends a dot before
the suffix that itself starts with a dot — not <root>/target/debug/svc.exe
as the claim (name plus suffix) requires. -/
theorem c4_counterexample :
    (compiler ".exe" runOk [svcPkg] false false ["root"] ["cwd"] 1).result
        = Except.ok
            [{ executable_path := ["root", "target", "debug", "svc..exe"], is_wasm := false,
               package_name := "svc", working_directory := ["cwd"],
               manifest_path := ["ws", "svc", "Cargo.toml"] }]
      ∧ ("svc..exe" : String) ≠ "svc" ++ ".exe" := by
  exact ⟨rfl, by decide⟩

/-- C4 amended: for a dotless native package name, the resolved artifact is
<root>/target/debug/<name> in Debug and <root>/target/release/<name> in
Release when the platform executable suffix is empty (Unix-like platforms);
when the suffix is nonempty the file name is <name>.<suffix> — for the
Windows suffix ".exe" that is <name>..exe, not <name>.exe. For a wasm
package the path is <root>/target/wasm32-wasi/<profile>/<name>.wasm
regardless of the executable suffix. -/
theorem c4_artifact_paths (o : CmdOutput) (pp cwd mpp : List String) (jobs : Nat)
    (name : String) (deps : List String) (tgts : List Target) (rm : Bool) (es : String)
    (hdot : ∀ c ∈ name.toList, c ≠ '.') :
    ((compiler "" (fun _ => Except.ok o) [⟨name, deps, tgts, mpp⟩]
        rm false pp cwd jobs).result
      = Except.ok
          [{ executable_path := pp ++ ["target", if rm then "release" else "debug", name],
             is_wasm := false, package_name := name, working_directory := cwd,
             manifest_path := mpp }])
    ∧ (es ≠ "" →
      (compiler es (fun _ => Except.ok o) [⟨name, deps, tgts, mpp⟩]
          rm false pp cwd jobs).result
        = Except.ok
            [{ executable_path :=
                 pp ++ ["target", if rm then "release" else "debug", name ++ "." ++ es],
               is_wasm := false, package_name := name, working_directory := cwd,
               manifest_path := mpp }])
    ∧ ((compiler es (fun _ => Except.ok o) [⟨name, deps, tgts, mpp⟩]
          rm true pp cwd jobs).result
        = Except.ok
            [{ executable_path :=
                 pp ++ ["target", "wasm32-wasi", if rm then "release" else "debug",
                        name ++ ".wasm"],
               is_wasm := true, package_name := name, working_directory := cwd,
               manifest_path := mpp }]) := by
  refine ⟨?_, ?_, ?_⟩
  · simp [compiler, (setExtension_of_no_dot name "" hdot).1]
  · intro hx
    simp [compiler, (setExtension_of_no_dot name es hdot).2 hx]
  · simp [compiler,
      (setExtension_of_no_dot name "wasm" hdot).2 (by decide)]
    rw [String.append_assoc]
    exact congrArg (fun t => name ++ t) (by decide)

/-- Witness for C4 at a concrete input: the Unix Debug native path for
package "svc". -/
theorem c4_witness :
    (compiler "" (fun _ => Except.ok { success := true, stdout := "", stderr := "" })
        [{ name := "svc", dependencies := [], targets := [], manifest_path := [] }]
        false false ["root"] ["cwd"] 1).result
      = Except.ok
          [{ executable_path := ["root", "target", "debug", "svc"], is_wasm := false,
             package_name := "svc", working_directory := ["cwd"],
             manifest_path := [] }] := by
  exact (c4_artifact_paths { success := true, stdout := "", stderr := "" }
    ["root"] ["cwd"] [] 1 "svc" [] [] false "x" (by decide)).1

/-- A workspace whose members match neither marker classifies into two empty
buckets. -/
theorem classify_of_no_marker (nn rn : String) (members : List Package)
    (h : ∀ m ∈ members, is_next nn m = false ∧ is_alpha rn m = false) :
    classify nn rn members = Except.ok ([], []) := by
  induction members with
  | nil => rfl
  | cons m rest ih =>
    have hm := h m (List.mem_cons_self m rest)
    have hr := ih (fun q hq => h q (List.mem_cons_of_mem m hq))
    unfold classify
    simp [hm.1, hm.2, hr]

/-- C5: when no workspace member declares either class marker dependency,
`build_workspace` succeeds with an empty artifact list and issues no
toolchain invocation. -/
theorem c5_no_marker_build_empty (nn rn es : String)
    (run : List String → Except String CmdOutput) (members : List Package)
    (pp cwd : List String) (rm : Bool) (jobs : Nat)
    (h : ∀ m ∈ members, is_next nn m = false ∧ is_alpha rn m = false) :
    build_workspace nn rn es run true (Except.ok members) pp cwd rm jobs
      = { invocations := [], metadataLoaded := true, result := Except.ok [] } := by
  simp [build_workspace, classify_of_no_marker nn rn members h]

/-- Witness for C5 at a concrete input: one member with an unrelated
dependency. -/
theorem c5_witness :
    build_workspace "shuttle-next" "shuttle-runtime" "" runOk true
        (Except.ok [{ name := "plain", dependencies := ["serde"],
                      targets := [{ kind := ["bin"] }], manifest_path := [] }])
        ["ws"] ["cwd"] false 1
      = { invocations := [], metadataLoaded := true, result := Except.ok [] } := by
  exact c5_no_marker_build_empty "shuttle-next" "shuttle-runtime" "" runOk
    [{ name := "plain", dependencies := ["serde"],
       targets := [{ kind := ["bin"] }], manifest_path := [] }]
    ["ws"] ["cwd"] false 1 (by simp [is_next, is_alpha])

/-- The package-selector section of the batched command carries one
"--package" flag per package. -/
theorem count_package_flags (pkgs : List Package)
    (h : ∀ p ∈ pkgs, p.name ≠ "--package") :
    (pkgs.flatMap fun p => ["--package", p.name]).count "--package" = pkgs.length := by
  induction pkgs with
  | nil => simp
  | cons p t ih =>
    have hp : p.name ≠ "--package" := h p (List.mem_cons_self p t)
    have ht := ih (fun q hq => h q (List.mem_cons_of_mem p hq))
    simp [List.count_cons, ht, hp]

/-- C6: one `compiler` call for a batch of N same-class packages issues
exactly one toolchain invocation, whose command line is the fixed build
arguments followed by one "--package <name>" selector pair per package,
the profile flag, and (for wasm) the target flag; in particular the command
line carries exactly N "--package" flags. -/
theorem c6_single_batched_invocation (es : String)
    (run : List String → Except String CmdOutput) (pkgs : List Package)
    (rm wasm : Bool) (pp cwd : List String) (jobs : Nat)
    (h : ∀ p ∈ pkgs, p.name ≠ "--package") :
    (compiler es run pkgs rm wasm pp cwd jobs).invocations
        = [["build", "-j", toString jobs, "--manifest-path", joinPath (pp ++ ["Cargo.toml"])]
            ++ (pkgs.flatMap fun p => ["--package", p.name])
            ++ (if rm then ["--profile", "release"] else ["--profile", "dev"])
            ++ (if wasm then ["--target", "wasm32-wasi"] else [])]
      ∧ (compiler es run pkgs rm wasm pp cwd jobs).invocations.length = 1
      ∧ (pkgs.flatMap fun p => ["--package", p.name]).count "--package" = pkgs.length := by
  exact ⟨rfl, rfl, count_package_flags pkgs h⟩

/-- Witness for C6 at a concrete two-package batch. -/
theorem c6_witness :
    (compiler "" runOk
        [{ name := "a", dependencies := [], targets := [], manifest_path := [] },
         { name := "b", dependencies := [], targets := [], manifest_path := [] }]
        false false ["ws"] ["cwd"] 2).invocations.length = 1
      ∧ (([{ name := "a", dependencies := [], targets := [], manifest_path := [] },
           { name := "b", dependencies := [], targets := [], manifest_path := [] }]
          : List Package).flatMap fun p => ["--package", p.name]).count "--package" = 2 := by
  have h := c6_single_batched_invocation "" runOk
    [{ name := "a", dependencies := [], targets := [], manifest_path := [] },
     { name := "b", dependencies := [], targets := [], manifest_path := [] }]
    false false ["ws"] ["cwd"] 2 (by simp)
  exact ⟨h.2.1, h.2.2⟩

/-- Every workspace member carrying the next marker lands in the next bucket
of a successful classification, and its cdylib validation passed. -/
theorem classify_next_mem (nn rn : String) (members : List Package)
    (a n : List Package) (hc : classify nn rn members = Except.ok (a, n))
    (m : Package) (hm : m ∈ members) (hnext : is_next nn m = true) :
    m ∈ n ∧ ensure_cdylib m = Except.ok () := by
  induction members generalizing a n with
  | nil => cases hm
  | cons p rest ih =>
    unfold classify at hc
    by_cases hp : is_next nn p
    · rw [if_pos hp] at hc
      cases hcd : ensure_cdylib p with
      | error e => rw [hcd] at hc; cases hc
      | ok u =>
        rw [hcd] at hc
        cases hrest : classify nn rn rest with
        | error e => rw [hrest] at hc; cases hc
        | ok pair =>
          obtain ⟨aa, nnn⟩ := pair
          rw [hrest] at hc
          simp only [Except.ok.injEq, Prod.mk.injEq] at hc
          obtain ⟨rfl, rfl⟩ := hc
          rcases List.mem_cons.mp hm with rfl | hmr
          · exact ⟨List.mem_cons_self m nnn, hcd⟩
          · obtain ⟨h1, h2⟩ := ih aa nnn hrest hmr
            exact ⟨List.mem_cons_of_mem p h1, h2⟩
    · rw [if_neg hp] at hc
      by_cases hpa : is_alpha rn p
      · rw [if_pos hpa] at hc
        cases hbin : ensure_binary p with
        | error e => rw [hbin] at hc; cases hc
        | ok u =>
          rw [hbin] at hc
          cases hrest : classify nn rn rest with
          | error e => rw [hrest] at hc; cases hc
          | ok pair =>
            obtain ⟨aa, nnn⟩ := pair
            rw [hrest] at hc
            simp only [Except.ok.injEq, Prod.mk.injEq] at hc
            obtain ⟨rfl, rfl⟩ := hc
            rcases List.mem_cons.mp hm with rfl | hmr
            · exact absurd hnext hp
            · exact ih aa nnn hrest hmr
      · rw [if_neg hpa] at hc
        rcases List.mem_cons.mp hm with rfl | hmr
        · exact absurd hnext hp
        · exact ih a n hc hmr

/-- Every member of the alpha bucket of a successful classification fails
the next-marker test: the next marker is checked first and short-circuits. -/
theorem classify_alpha_not_next (nn rn : String) (members : List Package)
    (a n : List Package) (hc : classify nn rn members = Except.ok (a, n)) :
    ∀ p ∈ a, is_next nn p = false := by
  induction members generalizing a n with
  | nil =>
    unfold classify at hc
    cases hc
    intro p hp
    cases hp
  | cons q rest ih =>
    unfold classify at hc
    by_cases hq : is_next nn q
    · rw [if_pos hq] at hc
      cases hcd : ensure_cdylib q with
      | error e => rw [hcd] at hc; cases hc
      | ok u =>
        rw [hcd] at hc
        cases hrest : classify nn rn rest with
        | error e => rw [hrest] at hc; cases hc
        | ok pair =>
          obtain ⟨aa, nnn⟩ := pair
          rw [hrest] at hc
          simp only [Except.ok.injEq, Prod.mk.injEq] at hc
          obtain ⟨rfl, rfl⟩ := hc
          exact ih aa nnn hrest
    · rw [if_neg hq] at hc
      by_cases hqa : is_alpha rn q
      · rw [if_pos hqa] at hc
        cases hbin : ensure_binary q with
        | error e => rw [hbin] at hc; cases hc
        | ok u =>
          rw [hbin] at hc
          cases hrest : classify nn rn rest with
          | error e => rw [hrest] at hc; cases hc
          | ok pair =>
            obtain ⟨aa, nnn⟩ := pair
            rw [hrest] at hc
            simp only [Except.ok.injEq, Prod.mk.injEq] at hc
            obtain ⟨rfl, rfl⟩ := hc
            intro p hp
            rcases List.mem_cons.mp hp with rfl | hpr
            · exact Bool.eq_false_iff.mpr hq
            · exact ih aa nnn hrest p hpr
      · rw [if_neg hqa] at hc
        exact ih a n hc

/-- C9: a workspace member whose dependencies carry both class marker names
is routed into the WasmLibrary (next) bucket only: the next-marker test is
applied first and short-circuits the alpha test, so on a successful
classification such a member is in the next bucket, absent from the alpha
bucket, and was validated against the cdylib requirement. -/
theorem c9_both_markers (nn rn : String) (members a n : List Package)
    (m : Package) (hc : classify nn rn members = Except.ok (a, n))
    (hm : m ∈ members) (hnext : is_next nn m = true)
    (_halpha : is_alpha rn m = true) :
    m ∈ n ∧ m ∉ a ∧ ensure_cdylib m = Except.ok () := by
  obtain ⟨h1, h2⟩ := classify_next_mem nn rn members a n hc m hm hnext
  refine ⟨h1, ?_, h2⟩
  intro hma
  have hfalse := classify_alpha_not_next nn rn members a n hc m hma
  rw [hnext] at hfalse
  cases hfalse

/-- A package carrying both marker dependencies and a cdylib target, used as
a concrete input. -/
def dualPkg : Package :=
  { name := "dual", dependencies := ["shuttle-next", "shuttle-runtime"],
    targets := [{ kind := ["cdylib"] }], manifest_path := [] }

/-- Witness for C9 at a concrete input: the dual-marker package classifies
into the next bucket only. -/
theorem c9_witness :
    dualPkg ∈ [dualPkg] ∧ dualPkg ∉ ([] : List Package)
      ∧ ensure_cdylib dualPkg = Except.ok () := by
  exact c9_both_markers "shuttle-next" "shuttle-runtime" [dualPkg] [] [dualPkg]
    dualPkg rfl (List.mem_singleton.mpr rfl) rfl rfl

/-- Splitting at the final dot of a name of the form `b ++ "." ++ a` with a
dotless tail yields exactly that split. -/
theorem splitLastDot_append (b a : List Char) (ha : ∀ c ∈ a, c ≠ '.') :
    splitLastDot (b ++ '.' :: a) = some (b, a) := by
  induction b with
  | nil => simp [splitLastDot, splitLastDot_eq_none a ha]
  | cons c bb ih => simp [splitLastDot, ih]

/-- The stem of a name with a nonempty portion before its final dot is that
portion. -/
theorem fileStem_append (b a : List Char) (hb : b ≠ [])
    (ha : ∀ c ∈ a, c ≠ '.') (hne : String.mk (b ++ '.' :: a) ≠ "..") :
    fileStem (String.mk (b ++ '.' :: a)) = String.mk b := by
  have hs : (String.mk (b ++ '.' :: a)).toList = b ++ '.' :: a := rfl
  unfold fileStem
  rw [if_neg hne, hs, splitLastDot_append b a ha]
  obtain ⟨c, bb, rfl⟩ : ∃ c bb, b = c :: bb := by
    cases b with
    | nil => exact absurd rfl hb
    | cons c bb => exact ⟨c, bb, rfl⟩
  rfl

/-- Applying a nonempty extension to a name with a nonempty stem replaces
everything after the final dot. -/
theorem setExtension_append (b a : List Char) (hb : b ≠ [])
    (ha : ∀ c ∈ a, c ≠ '.') (hne : String.mk (b ++ '.' :: a) ≠ "..") :
    setExtension (String.mk (b ++ '.' :: a)) "wasm" = String.mk b ++ ".wasm" := by
  have h1 : setExtension (String.mk (b ++ '.' :: a)) "wasm"
      = String.mk b ++ "." ++ "wasm" := by
    simp [setExtension, fileStem_append b a hb ha hne]
  rw [h1, String.append_assoc]
  exact congrArg (fun t => String.mk b ++ t) (by decide)

/-- C10 counterexample: the claim quantifies over every package name
containing a dot. For the name ".svc" the only dot is a leading dot, so the
Rust stem rule treats the whole name as the stem: the resolved wasm artifact
is <root>/target/wasm32-wasi/debug/.svc.wasm — the extension is appended —
whereas the claimed replace-after-final-dot rule would give .wasm. -/
theorem c10_counterexample :
    (compiler "" runOk [(⟨".svc", [], [], []⟩ : Package)]
        false true ["root"] ["cwd"] 1).result
        = Except.ok
            [{ executable_path := ["root", "target", "wasm32-wasi", "debug", ".svc.wasm"],
               is_wasm := true, package_name := ".svc", working_directory := ["cwd"],
               manifest_path := [] }]
      ∧ (".svc.wasm" : String) ≠ ".wasm" := by
  exact ⟨rfl, by decide⟩

/-- C10 amended: for a package name with a nonempty portion `b` before its
final dot and a dotless portion `a` after it (and distinct from ".."), the
resolved wasm artifact file name is `b` with ".wasm" substituted for the
portion after the final dot — not the whole name with ".wasm" appended.
Names consisting of a leading dot with no further dot are their own stem
under the Rust rule and get the extension appended instead. -/
theorem c10_set_extension_replaces (o : CmdOutput) (pp cwd mpp : List String)
    (jobs : Nat) (deps : List String) (tgts : List Target) (rm : Bool)
    (b a : List Char) (hb : b ≠ []) (ha : ∀ c ∈ a, c ≠ '.')
    (hne : String.mk (b ++ '.' :: a) ≠ "..") :
    ((compiler "" (fun _ => Except.ok o) [⟨String.mk (b ++ '.' :: a), deps, tgts, mpp⟩]
        rm true pp cwd jobs).result
      = Except.ok
          [{ executable_path := pp ++ ["target", "wasm32-wasi",
               if rm then "release" else "debug", String.mk b ++ ".wasm"],
             is_wasm := true, package_name := String.mk (b ++ '.' :: a),
             working_directory := cwd, manifest_path := mpp }])
    ∧ String.mk b ++ ".wasm" ≠ String.mk (b ++ '.' :: a) ++ ".wasm" := by
  constructor
  · simp [compiler, setExtension_append b a hb ha hne]
  · intro hcontr
    have hlen := congrArg String.length hcontr
    simp only [String.length_append] at hlen
    have hmk : ∀ l : List Char, (String.mk l).length = l.length := fun l => rfl
    rw [hmk b, hmk (b ++ '.' :: a), List.length_append] at hlen
    simp at hlen

/-- Witness for C10 at a concrete input: the wasm artifact for the package
named "my.svc" is my.wasm, not my.svc.wasm. -/
theorem c10_witness :
    (compiler "" (fun _ => Except.ok { success := true, stdout := "", stderr := "" })
        [⟨String.mk (['m', 'y'] ++ '.' :: ['s', 'v', 'c']), [], [], []⟩]
        false true ["root"] ["cwd"] 1).result
      = Except.ok
          [{ executable_path := ["root", "target", "wasm32-wasi", "debug",
               String.mk ['m', 'y'] ++ ".wasm"],
             is_wasm := true,
             package_name := String.mk (['m', 'y'] ++ '.' :: ['s', 'v', 'c']),
             working_directory := ["cwd"], manifest_path := [] }] := by
  exact (c10_set_extension_replaces { success := true, stdout := "", stderr := "" }
    ["root"] ["cwd"] [] 1 [] [] false ['m', 'y'] ['s', 'v', 'c']
    (by decide) (by decide) (by decide)).1
